import Mathlib

/-!
Shallow embedding of the supervision / shared-state core of the
Decarbon_Agent repository (src/core/state.py and src/core/scheduler.py),
together with theorems settling the frozen claims about it.

Modelling conventions:
* Python floats are represented as `Rat`; no arithmetic is ever performed
  on them by the modelled code, they are only stored and copied.
* Wall-clock timestamps (`datetime.now()`) are abstract ticks (`Nat`)
  supplied as an explicit `now` argument to the operations that read the
  clock.
* Python list objects are mutable and shared by reference.  Since
  the pydantic `model_copy()` method copies a model shallowly (field values are
  shared, `deep=False` is the default), the three list-valued fields that
  the manager mutates in place (`decision_history`, `active_alerts`,
  `alert_history`) are modelled as references (`Nat` ids) into an explicit
  heap of lists.  Slice assignment (`xs = xs[-100:]`) creates a fresh list
  object, modelled by allocating a fresh id.  All other field values
  (numbers, strings, `Decision` and `Alert` records, the advice dict) are
  never mutated in place by the modelled code, so plain value semantics is
  observationally equivalent for them.
* Logging (`print`, `logger.log_event`, `logger.log_error`) is a pure side
  effect with no influence on state and is not modelled.
* The code under analysis is sequential per operation (every operation of
  `StateManager` runs inside one `asyncio.Lock` critical section), so the
  operations are modelled as pure state transformers.
-/

/-- Abstract wall-clock time (`datetime` in the source). -/
abbrev Time := Nat

/-- `Decision` dataclass from src/core/state.py. -/
structure Decision where
  action : String
  explanation : String
  timestamp : Time
  confidence : Rat
deriving Repr, DecidableEq

/-- `Alert` dataclass from src/core/state.py. -/
structure Alert where
  level : String
  message : String
  timestamp : Time
  source : String
deriving Repr, DecidableEq

/-- Heap of Python list objects reachable from the state: `decLists` holds
the `List Decision` objects, `alertLists` the `List Alert` objects, each
addressed by a `Nat` id; `nextDec` / `nextAlert` are the next fresh ids. -/
structure Heap where
  decLists : Nat → List Decision
  alertLists : Nat → List Alert
  nextDec : Nat
  nextAlert : Nat

/-- `SystemState` pydantic model from src/core/state.py.  The three
list-valued fields that the manager mutates in place are references into
the `Heap`; everything else is stored by value (see module comment). -/
structure SystemState where
  solar_kwh : Rat
  load_kwh : Rat
  battery_soc : Rat
  grid_price : Rat
  co2_intensity : Rat
  solar_forecast_kwh : Rat
  load_forecast_kwh : Rat
  timestamp : Time
  system_status : String
  hvac_status : String
  lighting_status : String
  machine_status : String
  total_cost_eur : Rat
  total_co2_kg : Rat
  energy_savings_eur : Rat
  current_decision : Option Decision
  decision_history : Nat
  active_alerts : Nat
  alert_history : Nat
  infrastructure_advice : List (String × String)
  simulation_speed : Rat
  auto_control_enabled : Bool
deriving DecidableEq

/-- The default `SystemState` (field defaults of the pydantic model);
`now` is the creation time (`default_factory=datetime.now`), and the three
fresh empty lists get ids 0 (decisions), 0 and 1 (alerts). -/
def SystemState.init (now : Time) : SystemState where
  solar_kwh := 0
  load_kwh := 0
  battery_soc := 50
  grid_price := 15 / 100
  co2_intensity := 400
  solar_forecast_kwh := 0
  load_forecast_kwh := 0
  timestamp := now
  system_status := "running"
  hvac_status := "auto"
  lighting_status := "auto"
  machine_status := "auto"
  total_cost_eur := 0
  total_co2_kg := 0
  energy_savings_eur := 0
  current_decision := none
  decision_history := 0
  active_alerts := 0
  alert_history := 1
  infrastructure_advice := []
  simulation_speed := 1
  auto_control_enabled := true

/-- The heap right after `SystemState()` is constructed: ids 0 (decision
history), 0 (active alerts) and 1 (alert history) hold fresh empty lists. -/
def Heap.init : Heap where
  decLists := fun _ => []
  alertLists := fun _ => []
  nextDec := 1
  nextAlert := 2

/-- A subscriber callback.  The claims only need its identity and whether
an invocation raises, so a callback is modelled by those two observables. -/
structure Subscriber where
  id : Nat
  raises : Bool
deriving Repr, DecidableEq

/-- `StateManager` from src/core/state.py: the live `SystemState`, the
heap of list objects, and the subscriber list.  The `asyncio.Lock` makes
each operation atomic; the model therefore needs no lock. -/
structure StateManager where
  state : SystemState
  heap : Heap
  subscribers : List Subscriber

/-- `StateManager()` at time `now`. -/
def StateManager.init (now : Time) : StateManager where
  state := SystemState.init now
  heap := Heap.init
  subscribers := []

/-- `get_state`: `self._state.model_copy()`.  pydantic `model_copy()` is a
shallow copy (`deep=False` is the default), so the snapshot is a copy of
the record with the list-object references shared: in the model, the
record itself (ids copied by value). -/
def StateManager.get_state (m : StateManager) : SystemState :=
  m.state

/-- One keyword argument of `update_state`: a well-typed assignment to one
of the schema fields of `SystemState`, or a name that is no schema field
but does name a pydantic `BaseModel` attribute such as `model_copy`,
`copy`, `json` or `dict` (`shadowAttr` — the `hasattr` test passes but the
pydantic `setattr` raises `ValueError`), or a name that is not an
attribute of the state object at all (`unknown` — the `hasattr` test
fails). -/
inductive UpdateEntry where
  | solar_kwh (v : Rat)
  | load_kwh (v : Rat)
  | battery_soc (v : Rat)
  | grid_price (v : Rat)
  | co2_intensity (v : Rat)
  | solar_forecast_kwh (v : Rat)
  | load_forecast_kwh (v : Rat)
  | timestamp (v : Time)
  | system_status (v : String)
  | hvac_status (v : String)
  | lighting_status (v : String)
  | machine_status (v : String)
  | total_cost_eur (v : Rat)
  | total_co2_kg (v : Rat)
  | energy_savings_eur (v : Rat)
  | current_decision (v : Option Decision)
  | decision_history (v : List Decision)
  | active_alerts (v : List Alert)
  | alert_history (v : List Alert)
  | infrastructure_advice (v : List (String × String))
  | simulation_speed (v : Rat)
  | auto_control_enabled (v : Bool)
  | shadowAttr (name : String)
  | unknown (name : String)
deriving Repr, DecidableEq

/-- One iteration of the `for key, value in kwargs.items()` loop of
`update_state`: `if hasattr(self._state, key): setattr(self._state, key,
value)`.  A schema field name is assigned (assigning a Python list object
to a list-valued field allocates that object in the heap and repoints the
reference).  A name that is a pydantic attribute but no schema field
passes the `hasattr` guard, and the pydantic `BaseModel.__setattr__` then
raises `ValueError` (no field of that name) — the loop iteration fails.
A name that is not an attribute at all fails the `hasattr` test and is
skipped with no effect and no error. -/
def applyUpdateEntry (h : Heap) (s : SystemState) :
    UpdateEntry → Except String (Heap × SystemState)
  | .solar_kwh v => .ok (h, { s with solar_kwh := v })
  | .load_kwh v => .ok (h, { s with load_kwh := v })
  | .battery_soc v => .ok (h, { s with battery_soc := v })
  | .grid_price v => .ok (h, { s with grid_price := v })
  | .co2_intensity v => .ok (h, { s with co2_intensity := v })
  | .solar_forecast_kwh v => .ok (h, { s with solar_forecast_kwh := v })
  | .load_forecast_kwh v => .ok (h, { s with load_forecast_kwh := v })
  | .timestamp v => .ok (h, { s with timestamp := v })
  | .system_status v => .ok (h, { s with system_status := v })
  | .hvac_status v => .ok (h, { s with hvac_status := v })
  | .lighting_status v => .ok (h, { s with lighting_status := v })
  | .machine_status v => .ok (h, { s with machine_status := v })
  | .total_cost_eur v => .ok (h, { s with total_cost_eur := v })
  | .total_co2_kg v => .ok (h, { s with total_co2_kg := v })
  | .energy_savings_eur v => .ok (h, { s with energy_savings_eur := v })
  | .current_decision v => .ok (h, { s with current_decision := v })
  | .decision_history v =>
      .ok ({ h with decLists := Function.update h.decLists h.nextDec v,
                    nextDec := h.nextDec + 1 },
           { s with decision_history := h.nextDec })
  | .active_alerts v =>
      .ok ({ h with alertLists := Function.update h.alertLists h.nextAlert v,
                    nextAlert := h.nextAlert + 1 },
           { s with active_alerts := h.nextAlert })
  | .alert_history v =>
      .ok ({ h with alertLists := Function.update h.alertLists h.nextAlert v,
                    nextAlert := h.nextAlert + 1 },
           { s with alert_history := h.nextAlert })
  | .infrastructure_advice v => .ok (h, { s with infrastructure_advice := v })
  | .simulation_speed v => .ok (h, { s with simulation_speed := v })
  | .auto_control_enabled v => .ok (h, { s with auto_control_enabled := v })
  | .shadowAttr name =>
      .error ("ValueError: SystemState object has no field " ++ name)
  | .unknown _ => .ok (h, s)

/-- Invoking one subscriber callback with a snapshot: the only observable
behaviour is normal return or a raised exception. -/
def invokeSubscriber (sub : Subscriber) (_snap : SystemState) : Except String Unit :=
  if sub.raises then .error ("subscriber " ++ toString sub.id ++ " raised")
  else .ok ()

/-- One delivery record of the notification trace: which subscriber was
invoked, with which snapshot, and whether the invocation raised. -/
structure NotifyRec where
  sub : Subscriber
  snap : SystemState
  outcome : Except String Unit

/-- `_notify_subscribers`: `for callback in self._subscribers: try: await
callback(self._state.model_copy()) except Exception as e: print(...)`.
Every callback is invoked in list order with a (shallow) copy of the
state; an exception raised by a callback is caught and logged, and the
loop continues with the next callback, so the loop itself never raises. -/
def notifySubscribers : List Subscriber → SystemState → List NotifyRec
  | [], _ => []
  | sub :: rest, snap =>
      match invokeSubscriber sub snap with
      | .ok () =>
          { sub := sub, snap := snap, outcome := .ok () } :: notifySubscribers rest snap
      | .error msg =>
          -- the `except` branch: the exception is caught, the loop continues
          { sub := sub, snap := snap, outcome := .error msg } :: notifySubscribers rest snap

/-- The `for key, value in kwargs.items()` loop of `update_state`: the
keyword arguments are applied one at a time, mutating the live state in
place.  When `applyUpdateEntry` raises (a pydantic attribute that is no
schema field), the loop aborts: the entries already applied stay applied
and the exception propagates. -/
def applyUpdatesLoop : List UpdateEntry → Heap → SystemState →
    (Heap × SystemState) × Option String
  | [], h, s => ((h, s), none)
  | e :: rest, h, s =>
      match applyUpdateEntry h s e with
      | .ok (h2, s2) => applyUpdatesLoop rest h2 s2
      | .error msg => ((h, s), some msg)

/-- `update_state(**kwargs)` at time `now`: apply each keyword argument in
order (`applyUpdatesLoop`); when the loop completes, set `timestamp` to
`datetime.now()` and notify the subscribers with a shallow copy of the
state.  When a keyword argument raises the pydantic `ValueError`, the
exception propagates to the caller (the third component): the earlier
entries stay applied, the timestamp line is never reached, and no
subscriber is notified.  Returns the new manager, the notification trace,
and the exception, if any. -/
def StateManager.update_state (m : StateManager) (kwargs : List UpdateEntry)
    (now : Time) : StateManager × List NotifyRec × Option String :=
  match applyUpdatesLoop kwargs m.heap m.state with
  | ((h, s), none) =>
      let st := { s with timestamp := now }
      ({ m with state := st, heap := h }, notifySubscribers m.subscribers st, none)
  | ((h, s), some msg) =>
      ({ m with state := s, heap := h }, [], some msg)

/-- `add_decision(decision)`: set `current_decision`, append to the
decision-history list object in place, and when its length exceeds 100
rebind `decision_history` to the fresh list `history[-100:]`.  Returns the
new manager and the (empty) notification trace: `add_decision` invokes no
subscriber. -/
def StateManager.add_decision (m : StateManager) (d : Decision) :
    StateManager × List NotifyRec :=
  let ref := m.state.decision_history
  let l := m.heap.decLists ref ++ [d]
  let h := { m.heap with decLists := Function.update m.heap.decLists ref l }
  let st := { m.state with current_decision := some d }
  if l.length > 100 then
    -- `self._state.decision_history = self._state.decision_history[-100:]`
    -- slicing allocates a fresh list object
    ({ m with
        state := { st with decision_history := h.nextDec },
        heap := { h with
          decLists := Function.update h.decLists h.nextDec (l.drop (l.length - 100)),
          nextDec := h.nextDec + 1 } }, [])
  else
    ({ m with state := st, heap := h }, [])

/-- `add_alert(alert)`: append to the active-alert list object and to the
alert-history list object in place, and when the history length exceeds 50
rebind `alert_history` to the fresh list `history[-50:]`.  Returns the new
manager and the (empty) notification trace: `add_alert` invokes no
subscriber. -/
def StateManager.add_alert (m : StateManager) (a : Alert) :
    StateManager × List NotifyRec :=
  let activeRef := m.state.active_alerts
  let h1 := { m.heap with
    alertLists := Function.update m.heap.alertLists activeRef
      (m.heap.alertLists activeRef ++ [a]) }
  let histRef := m.state.alert_history
  let l := h1.alertLists histRef ++ [a]
  let h2 := { h1 with alertLists := Function.update h1.alertLists histRef l }
  if l.length > 50 then
    ({ m with
        state := { m.state with alert_history := h2.nextAlert },
        heap := { h2 with
          alertLists := Function.update h2.alertLists h2.nextAlert (l.drop (l.length - 50)),
          nextAlert := h2.nextAlert + 1 } }, [])
  else
    ({ m with heap := h2 }, [])

/-- `subscribe(callback)`: append the callback to the subscriber list. -/
def StateManager.subscribe (m : StateManager) (sub : Subscriber) : StateManager :=
  { m with subscribers := m.subscribers ++ [sub] }

/-- The decision history as seen through a given state record: the list
object its `decision_history` field refers to, read in heap `h`. -/
def decHistView (h : Heap) (s : SystemState) : List Decision :=
  h.decLists s.decision_history

/-- The active-alert list as seen through a given state record. -/
def activeAlertsView (h : Heap) (s : SystemState) : List Alert :=
  h.alertLists s.active_alerts

/-- The alert history as seen through a given state record. -/
def alertHistView (h : Heap) (s : SystemState) : List Alert :=
  h.alertLists s.alert_history

/-!
## Scheduler model (src/core/scheduler.py)

`AgentScheduler` keeps two insertion-ordered dicts, `agents` (name to the
registered agent instance) and `tasks` (name to the `asyncio.Task`
currently recorded for that name), modelled as association lists with
Python dict semantics.  Created tasks live in a pool (`pool`) that models
the event loop: a task keeps existing and running after its dict entry is
overwritten or deleted; only `cancel` or the task itself finishing changes
its status.  An agent instance is identified by an id, and the duck-typed
`hasattr(agent, "start")` test is the `hasStart` flag.
-/

/-- Status of an `asyncio.Task` in the pool. -/
inductive TaskStatus where
  | running
  | cancelled
  | doneOk
  | doneExc (msg : String)
deriving Repr, DecidableEq

/-- `task.done()`: true once the task has finished, was cancelled, or
terminated with an exception. -/
def taskDone : TaskStatus → Bool
  | .running => false
  | _ => true

/-- `task.cancelled()`. -/
def taskCancelled : TaskStatus → Bool
  | .cancelled => true
  | _ => false

/-- `task.exception()`: on a pending task it raises `InvalidStateError`,
on a cancelled task it raises `CancelledError`, otherwise it returns the
exception the task terminated with, or `None`. -/
def taskException : TaskStatus → Except String (Option String)
  | .running => .error "InvalidStateError: exception is not set"
  | .cancelled => .error "CancelledError"
  | .doneOk => .ok none
  | .doneExc msg => .ok (some msg)

/-- A task in the event loop pool: its id, the agent name it was created
for, and its status. -/
structure TaskRec where
  tid : Nat
  agent : String
  status : TaskStatus
deriving Repr, DecidableEq

/-- A registered agent instance: its Python object identity and whether it
has a `start` attribute. -/
structure AgentRec where
  instId : Nat
  hasStart : Bool
deriving Repr, DecidableEq

/-- Look up a key in a Python-dict association list (keys are unique). -/
def dictGet {α : Type} (d : List (String × α)) (k : String) : Option α :=
  (d.find? (fun p => p.1 == k)).map (·.2)

/-- `d[k] = v` on a Python dict: update in place if the key exists
(preserving its position), otherwise append. -/
def dictSet {α : Type} : List (String × α) → String → α → List (String × α)
  | [], k, v => [(k, v)]
  | p :: rest, k, v => if p.1 == k then (k, v) :: rest else p :: dictSet rest k v

/-- `del d[k]` on a Python dict. -/
def dictDel {α : Type} : List (String × α) → String → List (String × α)
  | [], _ => []
  | p :: rest, k => if p.1 == k then rest else p :: dictDel rest k

/-- `AgentScheduler` from src/core/scheduler.py. -/
structure AgentScheduler where
  agents : List (String × AgentRec)
  tasks : List (String × Nat)
  pool : List TaskRec
  nextTask : Nat
  running : Bool
  shutdown : Bool
deriving Repr, DecidableEq

/-- `AgentScheduler()`. -/
def AgentScheduler.init : AgentScheduler where
  agents := []
  tasks := []
  pool := []
  nextTask := 0
  running := false
  shutdown := false

/-- `register_agent(name, agent_instance)`: `self.agents[name] =
agent_instance`.  No check for an existing registration: an existing entry
is silently overwritten, and the call never raises. -/
def AgentScheduler.register_agent (s : AgentScheduler) (name : String)
    (agent : AgentRec) : AgentScheduler :=
  { s with agents := dictSet s.agents name agent }

/-- Status of the pool task with the given id (the pool always contains
every created task exactly once in reachable states). -/
def poolStatus (pool : List TaskRec) (tid : Nat) : Option TaskStatus :=
  (pool.find? (fun t => t.tid == tid)).map (·.status)

/-- Set the status of the pool task with the given id. -/
def poolSetStatus (pool : List TaskRec) (tid : Nat) (st : TaskStatus) :
    List TaskRec :=
  pool.map (fun t => if t.tid == tid then { t with status := st } else t)

/-- `start_agent(name)`: raises `ValueError` if the name is not
registered; otherwise, if the agent instance has a `start` attribute,
creates a new task running it (`asyncio.create_task(agent.start())`) and
records the handle with `self.tasks[name] = task` — without checking
whether a task is already recorded for that name; an existing handle is
overwritten while its task keeps running in the event loop.  If the agent
has no `start` attribute, nothing happens beyond a printed message. -/
def AgentScheduler.start_agent (s : AgentScheduler) (name : String) :
    Except String AgentScheduler :=
  match dictGet s.agents name with
  | none => .error ("Agent " ++ name ++ " not registered")
  | some agent =>
      if agent.hasStart then
        .ok { s with
          pool := s.pool ++ [{ tid := s.nextTask, agent := name, status := .running }],
          tasks := dictSet s.tasks name s.nextTask,
          nextTask := s.nextTask + 1 }
      else
        .ok s

/-- `stop_agent(name)`: if a task is recorded for the name, cancel it when
it is not yet done (cooperative cancellation: the `await task` completes
once the task has transitioned to cancelled, the raised `CancelledError`
is swallowed), then delete the dict entry.  A name with no recorded task
is a no-op.  Never raises. -/
def AgentScheduler.stop_agent (s : AgentScheduler) (name : String) :
    AgentScheduler :=
  match dictGet s.tasks name with
  | none => s
  | some tid =>
      let pool :=
        match poolStatus s.pool tid with
        | some .running => poolSetStatus s.pool tid .cancelled
        | _ => s.pool
      { s with pool := pool, tasks := dictDel s.tasks name }

/-- One entry of the mapping returned by `get_agent_status`. -/
structure StatusRec where
  running : Bool
  cancelled : Bool
  exception : Option String
deriving Repr, DecidableEq

/-- The body of the `get_agent_status` loop for one `(name, task)` entry:
builds `{"running": not task.done(), "cancelled": task.cancelled(),
"exception": str(task.exception()) if task.exception() else None}`.
`task.exception()` raises on a task that is still pending (or cancelled),
and that exception propagates out of `get_agent_status`. -/
def statusEntry (pool : List TaskRec) (tid : Nat) : Except String StatusRec :=
  match poolStatus pool tid with
  | none => .error "task handle missing from pool"
  | some st =>
      match taskException st with
      | .error e => .error e
      | .ok exc => .ok { running := !taskDone st, cancelled := taskCancelled st,
                         exception := exc }

/-- The `for name, task in self.tasks.items()` loop of
`get_agent_status`: an exception raised for one entry aborts the loop and
propagates to the caller. -/
def statusLoop (pool : List TaskRec) :
    List (String × Nat) → Except String (List (String × StatusRec))
  | [] => .ok []
  | (name, tid) :: rest =>
      match statusEntry pool tid with
      | .error e => .error e
      | .ok rec =>
          match statusLoop pool rest with
          | .error e => .error e
          | .ok out => .ok ((name, rec) :: out)

/-- `get_agent_status()`: a mapping from each name in `self.tasks` to its
status record, or the exception that `task.exception()` raised. -/
def AgentScheduler.get_agent_status (s : AgentScheduler) :
    Except String (List (String × StatusRec)) :=
  statusLoop s.pool s.tasks

/-- `restart_agent(name)`: `stop_agent`, a fixed 1-second pause (no
observable effect in the model), then `start_agent`; an exception raised
by `start_agent` propagates. -/
def AgentScheduler.restart_agent (s : AgentScheduler) (name : String) :
    Except String AgentScheduler :=
  (s.stop_agent name).start_agent name

/-- Event-loop step, not a scheduler method: the running task `tid`
terminates with an uncaught exception `msg` (the agent coroutine raised). -/
def taskFails (s : AgentScheduler) (tid : Nat) (msg : String) : AgentScheduler :=
  { s with pool :=
      match poolStatus s.pool tid with
      | some .running => poolSetStatus s.pool tid (.doneExc msg)
      | _ => s.pool }

/-- The `for name, task in list(self.tasks.items())` body of one wake of
`monitor_agents`: for each entry of the snapshot of the task dict taken at
the start of the wake, if the captured task is done, not cancelled, and
`task.exception()` is truthy, restart the agent.  An exception raised
inside the loop aborts the rest of the wake and is caught by the
enclosing `except` (which logs and backs off), so the state mutated so
far is kept. -/
def monitorLoop : List (String × Nat) → AgentScheduler → AgentScheduler
  | [], s => s
  | (name, tid) :: rest, s =>
      match poolStatus s.pool tid with
      | none => monitorLoop rest s
      | some st =>
          if taskDone st && !taskCancelled st then
            match taskException st with
            | .error _ => s
            | .ok none => monitorLoop rest s
            | .ok (some _) =>
                match s.restart_agent name with
                | .ok s' => monitorLoop rest s'
                | .error _ => s
          else monitorLoop rest s

/-- One wake of the `monitor_agents` loop (executed every 30 seconds while
`self.running` holds and shutdown is not set). -/
def AgentScheduler.monitorWake (s : AgentScheduler) : AgentScheduler :=
  monitorLoop s.tasks s

/-- How many live (still running) tasks the event loop holds for a given
agent name — tracked in the task dict or not. -/
def liveTasks (s : AgentScheduler) (name : String) : Nat :=
  (s.pool.filter (fun t => t.agent == name && t.status == .running)).length

/-- Whether a name is registered with an agent instance that has a `start`
attribute (the precondition under which `start_agent` creates a task). -/
def registeredWithStart (s : AgentScheduler) (name : String) : Bool :=
  match dictGet s.agents name with
  | some a => a.hasStart
  | none => false

/-- The name currently has a recorded task handle whose task is live. -/
def hasRunningTask (s : AgentScheduler) (name : String) : Prop :=
  ∃ tid, dictGet s.tasks name = some tid ∧ poolStatus s.pool tid = some .running

/-!
## Bounded-history helper: the last `n` entries of a list

`history[-n:]` in Python is `lastN n history` whenever it is executed with
`history.length > n`; `lastN` is also total on shorter lists (where it is
the identity), which makes it a convenient specification function.
-/

/-- The last `n` elements of a list (`l[-n:]` in Python, also defined, and
the identity, when the list is not longer than `n`). -/
def lastN {α : Type} (n : Nat) (l : List α) : List α :=
  l.drop (l.length - n)

/-- A sequence of `add_decision` calls. -/
def addDecisions (m : StateManager) (ds : List Decision) : StateManager :=
  ds.foldl (fun acc d => (acc.add_decision d).1) m

/-- A sequence of `add_alert` calls. -/
def addAlerts (m : StateManager) (alerts : List Alert) : StateManager :=
  alerts.foldl (fun acc a => (acc.add_alert a).1) m

/-- A concrete decision used by witnesses. -/
def dW : Decision :=
  { action := "idle", explanation := "test", timestamp := 0, confidence := 0 }

/-- A concrete alert used by witnesses. -/
def aW : Alert :=
  { level := "info", message := "test", timestamp := 0, source := "unit" }

/-- Whether a keyword argument of `update_state` names an attribute that
the state object does not have (the `hasattr` test fails). -/
def UpdateEntry.isUnknownField : UpdateEntry → Bool
  | .unknown _ => true
  | _ => false

/-- Whether a keyword argument names a pydantic attribute that is no
schema field (the `hasattr` test passes, the pydantic `setattr` raises). -/
def UpdateEntry.isShadowAttr : UpdateEntry → Bool
  | .shadowAttr _ => true
  | _ => false

/-- A concrete agent instance used in scheduler counterexamples. -/
def agentA : AgentRec := { instId := 1, hasStart := true }

/-- A second, distinct concrete agent instance. -/
def agentB : AgentRec := { instId := 2, hasStart := true }

/-- The scheduler obtained by registering "w" and starting it once. -/
def schedOneStarted : AgentScheduler :=
  { agents := [("w", agentA)], tasks := [("w", 0)],
    pool := [{ tid := 0, agent := "w", status := .running }],
    nextTask := 1, running := false, shutdown := false }

/-- A sequence of `update_state` calls (each a delta with its call time):
the final manager together with the concatenation of the notification
traces, in commit order. -/
def runUpdates : StateManager → List (List UpdateEntry × Time) →
    StateManager × List NotifyRec
  | m, [] => (m, [])
  | m, (kw, t) :: rest =>
      let r := m.update_state kw t
      let r' := runUpdates r.1 rest
      (r'.1, r.2.1 ++ r'.2)

/-- The state committed by each successful update of a run, in commit
order (the snapshot delivered to subscribers for that update); an update
that raises the pydantic `ValueError` commits no snapshot and notifies
nobody. -/
def commitSnapshots : StateManager → List (List UpdateEntry × Time) →
    List SystemState
  | _, [] => []
  | m, (kw, t) :: rest =>
      match (m.update_state kw t).2.2 with
      | none => (m.update_state kw t).1.state
          :: commitSnapshots (m.update_state kw t).1 rest
      | some _ => commitSnapshots (m.update_state kw t).1 rest

/-- Manager with one always-raising and one well-behaved subscriber. -/
def mgrTwoSubs : StateManager :=
  { state := SystemState.init 0, heap := Heap.init,
    subscribers := [{ id := 0, raises := true }, { id := 1, raises := false }] }

/-- A concrete two-update run. -/
def usTwo : List (List UpdateEntry × Time) :=
  [([], 1), ([UpdateEntry.solar_kwh 2], 2)]

/-!
## Generic helper lemmas about the dict and pool models
-/

theorem dictGet_cons {α : Type} (p : String × α) (d : List (String × α)) (k : String) :
    dictGet (p :: d) k = if p.1 == k then some p.2 else dictGet d k := by
  by_cases h : p.1 == k
  · simp [dictGet, List.find?_cons_of_pos, h]
  · simp [dictGet, List.find?_cons_of_neg _ h, h]

theorem dictGet_dictSet_self {α : Type} (d : List (String × α)) (k : String) (v : α) :
    dictGet (dictSet d k v) k = some v := by
  induction d with
  | nil => simp [dictSet, dictGet_cons]
  | cons p rest ih =>
      by_cases h : p.1 == k
      · simp [dictSet, h, dictGet_cons]
      · simp [dictSet, h, dictGet_cons, ih]

theorem dictGet_dictSet_ne {α : Type} (d : List (String × α)) (k k' : String) (v : α)
    (h : k' ≠ k) : dictGet (dictSet d k v) k' = dictGet d k' := by
  have hne : ¬ k = k' := fun hk => h hk.symm
  induction d with
  | nil => simp [dictSet, dictGet_cons, dictGet, hne]
  | cons p rest ih =>
      by_cases hp : p.1 == k
      · have hpk : p.1 = k := by simpa using hp
        simp [dictSet, hp, dictGet_cons, hpk, hne]
      · simp [dictSet, hp, dictGet_cons, ih]

theorem dictGet_dictDel_ne {α : Type} (d : List (String × α)) (k k' : String)
    (h : k' ≠ k) : dictGet (dictDel d k) k' = dictGet d k' := by
  have hne : ¬ k = k' := fun hk => h hk.symm
  induction d with
  | nil => simp [dictDel]
  | cons p rest ih =>
      by_cases hp : p.1 == k
      · have hpk : p.1 = k := by simpa using hp
        simp [dictDel, hp, dictGet_cons, hpk, hne]
      · simp [dictDel, hp, dictGet_cons, ih]

theorem poolStatus_cons (t : TaskRec) (pool : List TaskRec) (tid : Nat) :
    poolStatus (t :: pool) tid =
      if t.tid == tid then some t.status else poolStatus pool tid := by
  by_cases h : t.tid == tid
  · simp [poolStatus, List.find?_cons_of_pos, h]
  · simp [poolStatus, List.find?_cons_of_neg _ h, h]

theorem poolStatus_append_of_isSome (pool ts : List TaskRec) (tid : Nat)
    (h : (poolStatus pool tid).isSome) :
    poolStatus (pool ++ ts) tid = poolStatus pool tid := by
  induction pool with
  | nil => simp [poolStatus] at h
  | cons t rest ih =>
      by_cases ht : t.tid == tid
      · simp [poolStatus_cons, ht]
      · simp only [poolStatus_cons, ht, if_false] at h ⊢
        simp only [List.cons_append, poolStatus_cons, ht, if_false]
        exact ih h

theorem poolStatus_append_fresh (pool : List TaskRec) (n : Nat) (nm : String)
    (stt : TaskStatus) (h : ∀ t ∈ pool, t.tid < n) :
    poolStatus (pool ++ [{ tid := n, agent := nm, status := stt }]) n = some stt := by
  induction pool with
  | nil => simp [poolStatus_cons]
  | cons t rest ih =>
      have ht : ¬(t.tid == n) = true := by
        have := h t (by simp)
        simp
        omega
      simp only [List.cons_append, poolStatus_cons]
      rw [if_neg ht]
      exact ih (fun q hq => h q (by simp [hq]))

theorem lastN_of_length_le {α : Type} (n : Nat) (l : List α)
    (h : l.length ≤ n) : lastN n l = l := by
  unfold lastN
  rw [Nat.sub_eq_zero_of_le h, List.drop_zero]

theorem lastN_length {α : Type} (n : Nat) (l : List α) :
    (lastN n l).length = min l.length n := by
  simp [lastN]
  omega

theorem lastN_append {α : Type} (n : Nat) (l r : List α) :
    lastN n (lastN n l ++ r) = lastN n (l ++ r) := by
  unfold lastN
  rw [← List.drop_append_of_le_length (by omega)]
  rw [List.drop_drop]
  congr 1
  simp [List.length_append, List.length_drop]
  omega

/-- Folding "append one element, then keep the last `n`" over a list,
starting from an accumulator of length at most `n`, keeps exactly the last
`n` elements of everything appended. -/
theorem foldl_lastN {α : Type} (n : Nat) (l : List α) :
    ∀ acc : List α, acc.length ≤ n →
      l.foldl (fun h x => lastN n (h ++ [x])) acc = lastN n (acc ++ l) := by
  induction l with
  | nil => intro acc hacc
           simp [lastN_of_length_le n acc hacc]
  | cons x xs ih =>
      intro acc hacc
      have hlen : (lastN n (acc ++ [x])).length ≤ n := by
        rw [lastN_length]
        omega
      calc (x :: xs).foldl (fun h y => lastN n (h ++ [y])) acc
          = xs.foldl (fun h y => lastN n (h ++ [y])) (lastN n (acc ++ [x])) := rfl
        _ = lastN n (lastN n (acc ++ [x]) ++ xs) := ih _ hlen
        _ = lastN n ((acc ++ [x]) ++ xs) := lastN_append n _ _
        _ = lastN n (acc ++ x :: xs) := by simp

/-!
## Basic facts about the StateManager operations
-/

/-- The notification loop invokes every subscriber, in list order, with
the same snapshot; the recorded outcome of each is exactly what invoking
its callback produced (a raised exception having been caught). -/
theorem notifySubscribers_eq_map (subs : List Subscriber) (snap : SystemState) :
    notifySubscribers subs snap =
      subs.map (fun sub =>
        { sub := sub, snap := snap, outcome := invokeSubscriber sub snap }) := by
  induction subs with
  | nil => rfl
  | cons s rest ih =>
      unfold notifySubscribers
      split
      · rename_i heq
        simp [ih, heq]
      · rename_i heq
        simp [ih, heq]

/-- Calling `add_decision` appends the decision to the history list and
keeps only its last 100 entries (`history[-100:]` is executed only when
the length exceeds 100, where it equals `lastN 100`). -/
theorem decHistView_add_decision (m : StateManager) (d : Decision) :
    decHistView (m.add_decision d).1.heap (m.add_decision d).1.state
      = lastN 100 (decHistView m.heap m.state ++ [d]) := by
  by_cases hlen : 100 < (m.heap.decLists m.state.decision_history).length + 1
  · simp [StateManager.add_decision, hlen, decHistView, lastN,
      Function.update_same]
  · simp [StateManager.add_decision, hlen, decHistView,
      lastN_of_length_le 100 (m.heap.decLists m.state.decision_history ++ [d])
        (by simp; omega), Function.update_same]

theorem decHistView_addDecisions (ds : List Decision) :
    ∀ m : StateManager,
      decHistView (addDecisions m ds).heap (addDecisions m ds).state
        = ds.foldl (fun h d => lastN 100 (h ++ [d]))
            (decHistView m.heap m.state) := by
  induction ds with
  | nil => intro m; rfl
  | cons d rest ih =>
      intro m
      have hstep : addDecisions m (d :: rest) = addDecisions (m.add_decision d).1 rest := rfl
      rw [hstep, ih, decHistView_add_decision]
      rfl

/-- Calling `add_alert` appends the alert to both lists, trims the history
list to its last 50 entries, and preserves the heap well-formedness facts
(the two alert list objects are distinct and already allocated). -/
theorem add_alert_views (m : StateManager) (a : Alert)
    (hd : m.state.active_alerts ≠ m.state.alert_history)
    (ha : m.state.active_alerts < m.heap.nextAlert)
    (hh : m.state.alert_history < m.heap.nextAlert) :
    activeAlertsView (m.add_alert a).1.heap (m.add_alert a).1.state
        = activeAlertsView m.heap m.state ++ [a] ∧
    alertHistView (m.add_alert a).1.heap (m.add_alert a).1.state
        = lastN 50 (alertHistView m.heap m.state ++ [a]) ∧
    (m.add_alert a).1.state.active_alerts ≠ (m.add_alert a).1.state.alert_history ∧
    (m.add_alert a).1.state.active_alerts < (m.add_alert a).1.heap.nextAlert ∧
    (m.add_alert a).1.state.alert_history < (m.add_alert a).1.heap.nextAlert := by
  have hda : m.state.alert_history ≠ m.state.active_alerts := Ne.symm hd
  have han : m.state.active_alerts ≠ m.heap.nextAlert := Nat.ne_of_lt ha
  have hhn : m.state.alert_history ≠ m.heap.nextAlert := Nat.ne_of_lt hh
  have hhist : Function.update m.heap.alertLists m.state.active_alerts
      (m.heap.alertLists m.state.active_alerts ++ [a]) m.state.alert_history
      = m.heap.alertLists m.state.alert_history := Function.update_noteq hda _ _
  by_cases hlen : 50 < (m.heap.alertLists m.state.alert_history).length + 1
  · refine ⟨?_, ?_, ?_, ?_, ?_⟩ <;>
      simp only [StateManager.add_alert, hhist, List.length_append,
        List.length_cons, List.length_nil, Nat.add_zero, Nat.zero_add, hlen,
        if_true, activeAlertsView, alertHistView]
    · simp [Function.update_noteq han, Function.update_noteq hd,
        Function.update_same]
    · simp only [Function.update_same]
      unfold lastN
      congr 1
      all_goals simp only [List.length_append, List.length_cons, List.length_nil]
    all_goals omega
  · refine ⟨?_, ?_, ?_, ?_, ?_⟩ <;>
      simp only [StateManager.add_alert, hhist, List.length_append,
        List.length_cons, List.length_nil, Nat.add_zero, Nat.zero_add, hlen,
        if_false, activeAlertsView, alertHistView]
    · simp [Function.update_noteq hd, Function.update_same]
    · rw [lastN_of_length_le 50 _ (by simp; omega)]
      simp [Function.update_same]
    all_goals omega

theorem addAlerts_views (alerts : List Alert) :
    ∀ m : StateManager,
      m.state.active_alerts ≠ m.state.alert_history →
      m.state.active_alerts < m.heap.nextAlert →
      m.state.alert_history < m.heap.nextAlert →
      activeAlertsView (addAlerts m alerts).heap (addAlerts m alerts).state
          = activeAlertsView m.heap m.state ++ alerts ∧
      alertHistView (addAlerts m alerts).heap (addAlerts m alerts).state
          = alerts.foldl (fun h a => lastN 50 (h ++ [a]))
              (alertHistView m.heap m.state) := by
  induction alerts with
  | nil => intro m _ _ _; exact ⟨by simp [addAlerts], rfl⟩
  | cons a rest ih =>
      intro m hd ha hh
      obtain ⟨hact, hhist, hd', ha', hh'⟩ := add_alert_views m a hd ha hh
      have hstep : addAlerts m (a :: rest) = addAlerts (m.add_alert a).1 rest := rfl
      obtain ⟨ihact, ihhist⟩ := ih (m.add_alert a).1 hd' ha' hh'
      constructor
      · rw [hstep, ihact, hact, List.append_assoc]
        rfl
      · rw [hstep, ihhist, hhist]
        rfl

/-- Claim C6: Starting from an empty decision history, 101 `add_decision`
calls with decisions `ds = [d1, ..., d101]` leave the history equal to
`ds.drop 1 = [d2, ..., d101]` — length exactly 100, in original call
order, with only the oldest entry evicted — and after every prefix of the
calls the history length is at most 100 (the bound is never exceeded). -/
theorem decision_history_bound (ds : List Decision) (now : Time)
    (h : ds.length = 101) :
    decHistView (addDecisions (StateManager.init now) ds).heap
        (addDecisions (StateManager.init now) ds).state = ds.drop 1 ∧
    (decHistView (addDecisions (StateManager.init now) ds).heap
        (addDecisions (StateManager.init now) ds).state).length = 100 ∧
    ∀ k : Nat,
      (decHistView (addDecisions (StateManager.init now) (ds.take k)).heap
          (addDecisions (StateManager.init now) (ds.take k)).state).length ≤ 100 := by
  have key : ∀ l : List Decision,
      decHistView (addDecisions (StateManager.init now) l).heap
          (addDecisions (StateManager.init now) l).state = lastN 100 l := by
    intro l
    rw [decHistView_addDecisions]
    have hinit : decHistView (StateManager.init now).heap
        (StateManager.init now).state = [] := rfl
    rw [hinit, foldl_lastN 100 l [] (by simp)]
    simp
  refine ⟨?_, ?_, ?_⟩
  · rw [key]
    unfold lastN
    rw [h]
  · rw [key, lastN_length, h]
    omega
  · intro k
    rw [key, lastN_length]
    omega

/-- Witness for `decision_history_bound` at 101 copies of a concrete
decision. -/
theorem decision_history_bound_witness :
    (List.replicate 101 dW).length = 101 ∧
    (decHistView (addDecisions (StateManager.init 0) (List.replicate 101 dW)).heap
        (addDecisions (StateManager.init 0) (List.replicate 101 dW)).state
        = (List.replicate 101 dW).drop 1 ∧
    (decHistView (addDecisions (StateManager.init 0) (List.replicate 101 dW)).heap
        (addDecisions (StateManager.init 0) (List.replicate 101 dW)).state).length = 100 ∧
    ∀ k : Nat,
      (decHistView (addDecisions (StateManager.init 0) ((List.replicate 101 dW).take k)).heap
          (addDecisions (StateManager.init 0) ((List.replicate 101 dW).take k)).state).length ≤ 100) :=
  ⟨by simp, decision_history_bound (List.replicate 101 dW) 0 (by simp)⟩

/-- Claim C7: Starting from empty alert lists, 51 `add_alert` calls leave
the alert history with exactly the last 50 alerts (oldest evicted, FIFO)
while the active-alert list holds all 51: eviction applies to the history
list only, and the active list is never pruned. -/
theorem alert_history_bound (alerts : List Alert) (now : Time)
    (h : alerts.length = 51) :
    activeAlertsView (addAlerts (StateManager.init now) alerts).heap
        (addAlerts (StateManager.init now) alerts).state = alerts ∧
    (activeAlertsView (addAlerts (StateManager.init now) alerts).heap
        (addAlerts (StateManager.init now) alerts).state).length = 51 ∧
    alertHistView (addAlerts (StateManager.init now) alerts).heap
        (addAlerts (StateManager.init now) alerts).state = alerts.drop 1 ∧
    (alertHistView (addAlerts (StateManager.init now) alerts).heap
        (addAlerts (StateManager.init now) alerts).state).length = 50 := by
  obtain ⟨hact, hhist⟩ := addAlerts_views alerts (StateManager.init now)
    (show (0 : Nat) ≠ 1 by decide) (show (0 : Nat) < 2 by decide)
    (show (1 : Nat) < 2 by decide)
  have hact' : activeAlertsView (addAlerts (StateManager.init now) alerts).heap
      (addAlerts (StateManager.init now) alerts).state = alerts := by
    rw [hact]; rfl
  have hhist' : alertHistView (addAlerts (StateManager.init now) alerts).heap
      (addAlerts (StateManager.init now) alerts).state = alerts.drop 1 := by
    rw [hhist]
    have hinit : alertHistView (StateManager.init now).heap
        (StateManager.init now).state = [] := rfl
    rw [hinit, foldl_lastN 50 alerts [] (by simp)]
    unfold lastN
    simp [h]
  refine ⟨hact', ?_, hhist', ?_⟩
  · rw [hact', h]
  · rw [hhist', List.length_drop, h]

/-- Witness for `alert_history_bound` at 51 copies of a concrete alert. -/
theorem alert_history_bound_witness :
    (List.replicate 51 aW).length = 51 ∧
    (activeAlertsView (addAlerts (StateManager.init 0) (List.replicate 51 aW)).heap
        (addAlerts (StateManager.init 0) (List.replicate 51 aW)).state
        = List.replicate 51 aW ∧
    (activeAlertsView (addAlerts (StateManager.init 0) (List.replicate 51 aW)).heap
        (addAlerts (StateManager.init 0) (List.replicate 51 aW)).state).length = 51 ∧
    alertHistView (addAlerts (StateManager.init 0) (List.replicate 51 aW)).heap
        (addAlerts (StateManager.init 0) (List.replicate 51 aW)).state
        = (List.replicate 51 aW).drop 1 ∧
    (alertHistView (addAlerts (StateManager.init 0) (List.replicate 51 aW)).heap
        (addAlerts (StateManager.init 0) (List.replicate 51 aW)).state).length = 50) :=
  ⟨by simp, alert_history_bound (List.replicate 51 aW) 0 (by simp)⟩

/-- A delta free of attribute-shadowing names never raises, and behaves
exactly like the same delta with the non-attribute names removed (each
such name fails the `hasattr` test and is skipped). -/
theorem applyUpdatesLoop_no_shadow (kwargs : List UpdateEntry) :
    ∀ (h : Heap) (s : SystemState),
      (∀ e ∈ kwargs, e.isShadowAttr = false) →
      (applyUpdatesLoop kwargs h s).2 = none ∧
      applyUpdatesLoop kwargs h s
        = applyUpdatesLoop (kwargs.filter (fun e => !e.isUnknownField)) h s := by
  induction kwargs with
  | nil => intro h s _; exact ⟨rfl, rfl⟩
  | cons e rest ih =>
      intro h s hsh
      have hsh' : ∀ x ∈ rest, x.isShadowAttr = false :=
        fun x hx => hsh x (by simp [hx])
      cases e
      case shadowAttr nm =>
          have hfalse := hsh (.shadowAttr nm) (by simp)
          simp [UpdateEntry.isShadowAttr] at hfalse
      all_goals
        simp only [applyUpdatesLoop, applyUpdateEntry, List.filter_cons,
          UpdateEntry.isUnknownField, Bool.not_false, Bool.not_true,
          Bool.false_eq_true, reduceIte]
      all_goals exact ih _ _ hsh'

/-- The update loop aborts at the first attribute-shadowing name: the
entries before it stay applied, and the pydantic `ValueError` is the
result. -/
theorem applyUpdatesLoop_shadow (pre : List UpdateEntry) (nm : String)
    (post : List UpdateEntry) :
    ∀ (h : Heap) (s : SystemState),
      (∀ e ∈ pre, e.isShadowAttr = false) →
      applyUpdatesLoop (pre ++ UpdateEntry.shadowAttr nm :: post) h s
        = ((applyUpdatesLoop pre h s).1,
           some ("ValueError: SystemState object has no field " ++ nm)) := by
  induction pre with
  | nil => intro h s _; rfl
  | cons e pre2 ih =>
      intro h s hsh
      have hsh' : ∀ x ∈ pre2, x.isShadowAttr = false :=
        fun x hx => hsh x (by simp [hx])
      cases e
      case shadowAttr nm2 =>
          have hfalse := hsh (.shadowAttr nm2) (by simp)
          simp [UpdateEntry.isShadowAttr] at hfalse
      all_goals
        simp only [List.cons_append, applyUpdatesLoop, applyUpdateEntry]
      all_goals exact ih _ _ hsh'

/-- `update_state` never changes the subscriber list, on either path. -/
theorem update_state_subscribers (m : StateManager)
    (kwargs : List UpdateEntry) (now : Time) :
    (m.update_state kwargs now).1.subscribers = m.subscribers := by
  rcases hloop : applyUpdatesLoop kwargs m.heap m.state with ⟨⟨hh, ss⟩, err⟩
  cases err <;> simp only [StateManager.update_state, hloop]

/-- On a successful update, the trace is the notification round over the
updated state. -/
theorem update_state_trace_of_none (m : StateManager)
    (kwargs : List UpdateEntry) (now : Time)
    (herr : (m.update_state kwargs now).2.2 = none) :
    (m.update_state kwargs now).2.1
      = notifySubscribers m.subscribers (m.update_state kwargs now).1.state := by
  rcases hloop : applyUpdatesLoop kwargs m.heap m.state with ⟨⟨hh, ss⟩, err⟩
  cases err with
  | none => simp only [StateManager.update_state, hloop]
  | some msg =>
      simp only [StateManager.update_state, hloop] at herr
      exact absurd herr (by simp)

/-- On a failing update, no subscriber is notified. -/
theorem update_state_trace_of_some (m : StateManager)
    (kwargs : List UpdateEntry) (now : Time) (msg : String)
    (herr : (m.update_state kwargs now).2.2 = some msg) :
    (m.update_state kwargs now).2.1 = [] := by
  rcases hloop : applyUpdatesLoop kwargs m.heap m.state with ⟨⟨hh, ss⟩, err⟩
  cases err with
  | some msg2 => simp only [StateManager.update_state, hloop]
  | none =>
      simp only [StateManager.update_state, hloop] at herr
      exact absurd herr (by simp)

/-- Claim C1, counterexample: a delta whose single entry is the unknown
field name "voltage" — a name that is not an attribute of the state
object — is not rejected: the call completes without error, with exactly
the same result as a call with an empty delta (the unknown name is
silently ignored), and the state is not left unchanged, since the
timestamp is refreshed (from 0 to 5 here). -/
theorem update_state_unknown_field_counterexample :
    (StateManager.init 0).update_state [UpdateEntry.unknown "voltage"] 5
      = (StateManager.init 0).update_state [] 5 ∧
    ((StateManager.init 0).update_state [UpdateEntry.unknown "voltage"] 5).2.2 = none ∧
    ((StateManager.init 0).update_state [UpdateEntry.unknown "voltage"] 5).1.state.timestamp = 5 ∧
    (StateManager.init 0).state.timestamp = 0 :=
  ⟨rfl, rfl, rfl, rfl⟩

/-- Claim C1, amended: a field name that is not an attribute of the state
object is never rejected: it fails the `hasattr` test and is silently
skipped, so a call whose delta contains no attribute-shadowing name
completes without error and behaves exactly like the same delta with the
unknown names removed, refreshing the timestamp and notifying every
subscriber with the updated state.  Only a name that is a pydantic
attribute without being a schema field (such as `model_copy`) makes the
call fail: the pydantic `setattr` raises `ValueError` synchronously at
that entry, the entries before it stay applied, the timestamp is not
refreshed, and no subscriber is notified. -/
theorem update_state_skips_unknown_fields (m : StateManager)
    (kwargs : List UpdateEntry) (now : Time) :
    ((∀ e ∈ kwargs, e.isShadowAttr = false) →
      m.update_state kwargs now
        = m.update_state (kwargs.filter (fun e => !e.isUnknownField)) now ∧
      (m.update_state kwargs now).2.2 = none ∧
      (m.update_state kwargs now).1.state.timestamp = now ∧
      (m.update_state kwargs now).2.1
        = notifySubscribers m.subscribers (m.update_state kwargs now).1.state) ∧
    (∀ pre nm post, kwargs = pre ++ UpdateEntry.shadowAttr nm :: post →
      (∀ e ∈ pre, e.isShadowAttr = false) →
      (m.update_state kwargs now).2.2
          = some ("ValueError: SystemState object has no field " ++ nm) ∧
      (m.update_state kwargs now).2.1 = [] ∧
      (m.update_state kwargs now).1
        = { m with
            state := (applyUpdatesLoop pre m.heap m.state).1.2,
            heap := (applyUpdatesLoop pre m.heap m.state).1.1 }) := by
  constructor
  · intro hsh
    obtain ⟨hnone, hfilter⟩ := applyUpdatesLoop_no_shadow kwargs m.heap m.state hsh
    rcases hloop : applyUpdatesLoop kwargs m.heap m.state with ⟨⟨hh, ss⟩, err⟩
    rw [hloop] at hnone
    cases err with
    | some msg => simp at hnone
    | none =>
        refine ⟨?_, ?_, ?_, ?_⟩
        · unfold StateManager.update_state
          rw [hfilter]
        · simp only [StateManager.update_state, hloop]
        · simp only [StateManager.update_state, hloop]
        · simp only [StateManager.update_state, hloop]
  · intro pre nm post hkw hpre
    subst hkw
    have hshape := applyUpdatesLoop_shadow pre nm post m.heap m.state hpre
    rcases hloop : applyUpdatesLoop pre m.heap m.state with ⟨⟨hh, ss⟩, err⟩
    rw [hloop] at hshape
    refine ⟨?_, ?_, ?_⟩ <;>
      simp only [StateManager.update_state, hshape, hloop]

/-- Witness for `update_state_skips_unknown_fields`: the silent-skip part
at the single non-attribute name "voltage", and the error part at a delta
that first applies a schema field and then names `model_copy`. -/
theorem update_state_skips_unknown_fields_witness :
    ((∀ e ∈ [UpdateEntry.unknown "voltage"], e.isShadowAttr = false) ∧
      ((StateManager.init 0).update_state [UpdateEntry.unknown "voltage"] 5
          = (StateManager.init 0).update_state
              ([UpdateEntry.unknown "voltage"].filter
                (fun e => !e.isUnknownField)) 5 ∧
        ((StateManager.init 0).update_state
            [UpdateEntry.unknown "voltage"] 5).2.2 = none ∧
        ((StateManager.init 0).update_state
            [UpdateEntry.unknown "voltage"] 5).1.state.timestamp = 5 ∧
        ((StateManager.init 0).update_state [UpdateEntry.unknown "voltage"] 5).2.1
          = notifySubscribers (StateManager.init 0).subscribers
              (((StateManager.init 0).update_state
                [UpdateEntry.unknown "voltage"] 5).1.state))) ∧
    (((StateManager.init 0).update_state
        [UpdateEntry.solar_kwh 1, UpdateEntry.shadowAttr "model_copy"] 5).2.2
        = some ("ValueError: SystemState object has no field " ++ "model_copy") ∧
      ((StateManager.init 0).update_state
        [UpdateEntry.solar_kwh 1, UpdateEntry.shadowAttr "model_copy"] 5).2.1 = [] ∧
      ((StateManager.init 0).update_state
        [UpdateEntry.solar_kwh 1, UpdateEntry.shadowAttr "model_copy"] 5).1
        = { StateManager.init 0 with
            state := (applyUpdatesLoop [UpdateEntry.solar_kwh 1]
              (StateManager.init 0).heap (StateManager.init 0).state).1.2,
            heap := (applyUpdatesLoop [UpdateEntry.solar_kwh 1]
              (StateManager.init 0).heap (StateManager.init 0).state).1.1 }) :=
  ⟨⟨by decide,
    (update_state_skips_unknown_fields (StateManager.init 0)
      [UpdateEntry.unknown "voltage"] 5).1 (by decide)⟩,
   (update_state_skips_unknown_fields (StateManager.init 0)
      [UpdateEntry.solar_kwh 1, UpdateEntry.shadowAttr "model_copy"] 5).2
      [UpdateEntry.solar_kwh 1] "model_copy" [] rfl (by decide)⟩

/-- Claim C2, code bug: A snapshot returned by `get_state` is mutated by
later `add_decision` / `add_alert` calls: `model_copy()` is shallow, so
the snapshot shares the history and alert list objects with the live
state.  Concretely, from a fresh manager, the snapshot taken before the
mutations sees empty lists, but after one `add_decision` its decision
history reads `[dW]`, and after one `add_alert` its active-alert and
alert-history lists read `[aW]` — the snapshot is not an independent
copy. -/
theorem get_state_snapshot_aliased_code_bug :
    decHistView (StateManager.init 0).heap ((StateManager.init 0).get_state) = [] ∧
    decHistView ((StateManager.init 0).add_decision dW).1.heap
        ((StateManager.init 0).get_state) = [dW] ∧
    activeAlertsView (StateManager.init 0).heap ((StateManager.init 0).get_state) = [] ∧
    activeAlertsView ((StateManager.init 0).add_alert aW).1.heap
        ((StateManager.init 0).get_state) = [aW] ∧
    alertHistView ((StateManager.init 0).add_alert aW).1.heap
        ((StateManager.init 0).get_state) = [aW] := by
  refine ⟨rfl, ?_, rfl, ?_, ?_⟩ <;> decide

/-- Claim C10, counterexample: the call `update_state(model_copy=...)`
does not refresh the timestamp and invokes no subscriber: the name passes
the `hasattr` guard and the pydantic `setattr` raises `ValueError` before
the timestamp line and the notification are reached. -/
theorem update_state_shadow_attr_counterexample :
    ((StateManager.init 0).update_state
        [UpdateEntry.shadowAttr "model_copy"] 5).2.2
      = some ("ValueError: SystemState object has no field " ++ "model_copy") ∧
    ((StateManager.init 0).update_state
        [UpdateEntry.shadowAttr "model_copy"] 5).2.1 = [] ∧
    ((StateManager.init 0).update_state
        [UpdateEntry.shadowAttr "model_copy"] 5).1.state.timestamp = 0 :=
  ⟨rfl, rfl, rfl⟩

/-- Claim C10, amended: only `update_state` refreshes the last-modified
timestamp and notifies subscribers, and it does so exactly on the calls
that complete without error: such a call — with any delta, including the
empty one, which always succeeds — sets the timestamp to the call time
and invokes every subscriber once, in order, with the updated state; a
call that raises the pydantic `ValueError` invokes no subscriber (and
never reaches the timestamp refresh); and `add_decision` and `add_alert`
always leave the timestamp unchanged and invoke no subscriber. -/
theorem update_state_only_notifier (m : StateManager)
    (kwargs : List UpdateEntry) (now : Time) (d : Decision) (a : Alert) :
    ((m.update_state kwargs now).2.2 = none →
      (m.update_state kwargs now).1.state.timestamp = now ∧
      ((m.update_state kwargs now).2.1.map (fun r => r.sub)) = m.subscribers ∧
      (∀ r ∈ (m.update_state kwargs now).2.1,
          r.snap = (m.update_state kwargs now).1.state)) ∧
    ((m.update_state kwargs now).2.2 ≠ none →
      (m.update_state kwargs now).2.1 = []) ∧
    (m.update_state [] now).2.2 = none ∧
    (m.add_decision d).1.state.timestamp = m.state.timestamp ∧
    (m.add_decision d).2 = [] ∧
    (m.add_alert a).1.state.timestamp = m.state.timestamp ∧
    (m.add_alert a).2 = [] := by
  refine ⟨?_, ?_, rfl, ?_, ?_, ?_, ?_⟩
  · intro herr
    rcases hloop : applyUpdatesLoop kwargs m.heap m.state with ⟨⟨hh, ss⟩, err⟩
    cases err with
    | some msg =>
        simp only [StateManager.update_state, hloop] at herr
        exact absurd herr (by simp)
    | none =>
        refine ⟨?_, ?_, ?_⟩
        · simp only [StateManager.update_state, hloop]
        · simp only [StateManager.update_state, hloop]
          rw [notifySubscribers_eq_map]
          simp [Function.comp_def]
        · intro r hr
          simp only [StateManager.update_state, hloop] at hr ⊢
          rw [notifySubscribers_eq_map] at hr
          simp only [List.mem_map] at hr
          obtain ⟨sub, hmem, heq⟩ := hr
          subst heq
          rfl
  · intro herr
    rcases hloop : applyUpdatesLoop kwargs m.heap m.state with ⟨⟨hh, ss⟩, err⟩
    cases err with
    | some msg => simp only [StateManager.update_state, hloop]
    | none =>
        simp only [StateManager.update_state, hloop] at herr
        exact absurd rfl herr
  · simp only [StateManager.add_decision]
    split <;> rfl
  · simp only [StateManager.add_decision]
    split <;> rfl
  · simp only [StateManager.add_alert]
    split <;> rfl
  · simp only [StateManager.add_alert]
    split <;> rfl

/-- Witness for `update_state_only_notifier`: an empty delta succeeds and
refreshes timestamp and notifications; the delta naming `copy` raises and
notifies nobody. -/
theorem update_state_only_notifier_witness :
    ((StateManager.init 0).update_state [] 5).2.2 = none ∧
    (((StateManager.init 0).update_state [] 5).1.state.timestamp = 5 ∧
      (((StateManager.init 0).update_state [] 5).2.1.map (fun r => r.sub))
        = (StateManager.init 0).subscribers ∧
      (∀ r ∈ ((StateManager.init 0).update_state [] 5).2.1,
          r.snap = ((StateManager.init 0).update_state [] 5).1.state)) ∧
    ((StateManager.init 0).update_state [UpdateEntry.shadowAttr "copy"] 5).2.2
      ≠ none ∧
    ((StateManager.init 0).update_state [UpdateEntry.shadowAttr "copy"] 5).2.1
      = [] :=
  ⟨rfl,
   (update_state_only_notifier (StateManager.init 0) [] 5 dW aW).1 rfl,
   by decide,
   (update_state_only_notifier (StateManager.init 0)
      [UpdateEntry.shadowAttr "copy"] 5 dW aW).2.1 (by decide)⟩

/-- Claim C5, counterexample: Registering a second worker under an
already-registered name does not fail and does not leave the original
registration untouched: `register_agent` has no duplicate check, so the
second call silently replaces `agentA` by `agentB` under the name "w". -/
theorem register_agent_duplicate_counterexample :
    ((AgentScheduler.init.register_agent "w" agentA).register_agent "w" agentB).agents
      = [("w", agentB)] ∧
    dictGet ((AgentScheduler.init.register_agent "w" agentA).register_agent "w"
      agentB).agents "w" = some agentB ∧
    agentB ≠ agentA := by
  refine ⟨?_, ?_, ?_⟩ <;> decide

/-- Claim C5, amended: `register_agent` never raises: registering a name
that is already registered silently overwrites the existing entry, so
afterwards the name maps to the newly supplied instance (last
registration wins), and no other registration is affected. -/
theorem register_agent_overwrites (s : AgentScheduler) (name other : String)
    (a : AgentRec) :
    dictGet (s.register_agent name a).agents name = some a ∧
    (other ≠ name →
      dictGet (s.register_agent name a).agents other = dictGet s.agents other) := by
  constructor
  · exact dictGet_dictSet_self s.agents name a
  · intro hne
    exact dictGet_dictSet_ne s.agents name other a hne

/-- Witness for `register_agent_overwrites` on a concrete scheduler. -/
theorem register_agent_overwrites_witness :
    ("x" : String) ≠ "w" ∧
    (dictGet ((AgentScheduler.init.register_agent "w" agentA).register_agent "w"
        agentB).agents "w" = some agentB ∧
      (("x" : String) ≠ "w" →
        dictGet ((AgentScheduler.init.register_agent "w" agentA).register_agent "w"
          agentB).agents "x"
          = dictGet (AgentScheduler.init.register_agent "w" agentA).agents "x")) :=
  ⟨by decide,
   register_agent_overwrites (AgentScheduler.init.register_agent "w" agentA)
     "w" "x" agentB⟩

/-- Claim C3, counterexample: A reachable scheduler state with two live
tasks for the single registered name "w": after `register_agent` and a
first `start_agent`, a second `start_agent` succeeds, spawns a second
running task (id 1) and overwrites the recorded handle, while task 0 keeps
running in the event loop — so "at most one live task per registered
worker name" is violated, and the second start is neither a no-op nor an
error. -/
theorem start_agent_double_start_counterexample :
    ((AgentScheduler.init.register_agent "w" agentA).start_agent "w").bind
        (fun s => s.start_agent "w")
      = .ok { agents := [("w", agentA)],
              tasks := [("w", 1)],
              pool := [{ tid := 0, agent := "w", status := .running },
                       { tid := 1, agent := "w", status := .running }],
              nextTask := 2, running := false, shutdown := false } ∧
    (((AgentScheduler.init.register_agent "w" agentA).start_agent "w").bind
        (fun s => s.start_agent "w")).map (fun s => liveTasks s "w")
      = .ok 2 :=
  ⟨rfl, rfl⟩

/-- Claim C3, amended: `start_agent` on a worker that is already Running
is not guarded: it deterministically spawns one more task for the name
and overwrites the recorded handle, so the previously recorded task stays
live but untracked and the number of live tasks for the name grows by
one.  (At most one task handle per name is ever *recorded*, but live
tasks are not unique per name.) -/
theorem start_agent_already_running_spawns_second (s : AgentScheduler)
    (name : String) (a : AgentRec) (tid : Nat)
    (hreg : dictGet s.agents name = some a) (hstart : a.hasStart = true)
    (_htask : dictGet s.tasks name = some tid)
    (hrun : poolStatus s.pool tid = some .running) :
    ∃ s', s.start_agent name = .ok s' ∧
      s'.pool = s.pool ++ [{ tid := s.nextTask, agent := name, status := .running }] ∧
      dictGet s'.tasks name = some s.nextTask ∧
      poolStatus s'.pool tid = some .running ∧
      liveTasks s' name = liveTasks s name + 1 := by
  refine ⟨{ s with
      pool := s.pool ++ [{ tid := s.nextTask, agent := name, status := .running }],
      tasks := dictSet s.tasks name s.nextTask,
      nextTask := s.nextTask + 1 }, ?_, rfl, ?_, ?_, ?_⟩
  · unfold AgentScheduler.start_agent
    rw [hreg]
    simp [hstart]
  · exact dictGet_dictSet_self s.tasks name s.nextTask
  · show poolStatus (s.pool
        ++ [{ tid := s.nextTask, agent := name, status := .running }]) tid
      = some .running
    rw [poolStatus_append_of_isSome s.pool _ tid (by rw [hrun]; rfl), hrun]
  · simp [liveTasks, List.filter_append]

/-- Witness for `start_agent_already_running_spawns_second` at
`schedOneStarted`. -/
theorem start_agent_already_running_spawns_second_witness :
    (dictGet schedOneStarted.agents "w" = some agentA ∧
      agentA.hasStart = true ∧
      dictGet schedOneStarted.tasks "w" = some 0 ∧
      poolStatus schedOneStarted.pool 0 = some .running) ∧
    (∃ s', schedOneStarted.start_agent "w" = .ok s' ∧
      s'.pool = schedOneStarted.pool
        ++ [{ tid := schedOneStarted.nextTask, agent := "w", status := .running }] ∧
      dictGet s'.tasks "w" = some schedOneStarted.nextTask ∧
      poolStatus s'.pool 0 = some .running ∧
      liveTasks s' "w" = liveTasks schedOneStarted "w" + 1) :=
  ⟨⟨by decide, by decide, by decide, by decide⟩,
   start_agent_already_running_spawns_second schedOneStarted "w" agentA 0
     (by decide) (by decide) (by decide) (by decide)⟩

/-- Claim C4, code bug: After `register_agent("w"); start_agent("w")` the
status query does not return a mapping with `running = true` — it raises:
for the recorded task, which is still pending, `get_agent_status`
evaluates `task.exception()`, which raises `InvalidStateError` on a task
that is not done, so the whole call fails instead of returning.  Moreover
`stop_agent("w")` deletes the dict entry, so the status mapping afterwards
has no "w" key at all rather than one with `running = false`. -/
theorem get_agent_status_raises_code_bug :
    (AgentScheduler.init.register_agent "w" agentA).start_agent "w"
      = .ok schedOneStarted ∧
    schedOneStarted.get_agent_status
      = .error "InvalidStateError: exception is not set" ∧
    (schedOneStarted.stop_agent "w").tasks = [] ∧
    (schedOneStarted.stop_agent "w").get_agent_status = .ok [] :=
  ⟨rfl, rfl, rfl, rfl⟩

/-- In one notification round, the deliveries to a given subscriber are
one per occurrence of that subscriber in the list, each carrying the
committed snapshot — regardless of which subscribers raise. -/
theorem notify_filter_snap (subs : List Subscriber) (snap : SystemState)
    (w : Subscriber) :
    ((notifySubscribers subs snap).filter (fun r => r.sub == w)).map
        (fun r => r.snap)
      = List.replicate (subs.count w) snap := by
  rw [notifySubscribers_eq_map]
  induction subs with
  | nil => rfl
  | cons s rest ih =>
      by_cases hs : s = w
      · subst hs
        simp [List.filter_cons, List.count_cons, List.replicate_succ, ih]
      · have hbeq : (s == w) = false := by simp [hs]
        have hbeq2 : (w == s) = false := by simp [Ne.symm hs]
        simp [List.filter_cons, List.count_cons, hbeq, hbeq2, ih]

/-- In one notification round, the deliveries to a non-raising subscriber
all complete normally. -/
theorem notify_outcome_ok (subs : List Subscriber) (snap : SystemState)
    (w : Subscriber) (hw : w.raises = false) :
    ∀ r ∈ notifySubscribers subs snap, r.sub = w → r.outcome = .ok () := by
  intro r hr hrw
  rw [notifySubscribers_eq_map] at hr
  simp only [List.mem_map] at hr
  obtain ⟨sub, hmem, rfl⟩ := hr
  have hsw : sub = w := hrw
  subst hsw
  simp [invokeSubscriber, hw]

theorem runUpdates_outcome_ok (w : Subscriber) (hw : w.raises = false) :
    ∀ (us : List (List UpdateEntry × Time)) (m : StateManager),
      ∀ r ∈ (runUpdates m us).2, r.sub = w → r.outcome = .ok () := by
  intro us
  induction us with
  | nil => intro m r hr; simp [runUpdates] at hr
  | cons u rest ih =>
      intro m r hr hrw
      obtain ⟨kw, t⟩ := u
      simp only [runUpdates, List.mem_append] at hr
      rcases hr with hr | hr
      · cases herr : (m.update_state kw t).2.2 with
        | none =>
            rw [update_state_trace_of_none m kw t herr] at hr
            exact notify_outcome_ok m.subscribers _ w hw r hr hrw
        | some msg =>
            rw [update_state_trace_of_some m kw t msg herr] at hr
            simp at hr
      · exact ih (m.update_state kw t).1 r hr hrw

theorem runUpdates_filter_snap (w : Subscriber) :
    ∀ (us : List (List UpdateEntry × Time)) (m : StateManager),
      m.subscribers.count w = 1 →
      ((runUpdates m us).2.filter (fun r => r.sub == w)).map (fun r => r.snap)
        = commitSnapshots m us := by
  intro us
  induction us with
  | nil => intro m _; rfl
  | cons u rest ih =>
      intro m hc
      obtain ⟨kw, t⟩ := u
      have hsubs := update_state_subscribers m kw t
      have htr : (runUpdates m ((kw, t) :: rest)).2
          = (m.update_state kw t).2.1
            ++ (runUpdates (m.update_state kw t).1 rest).2 := rfl
      rw [htr, List.filter_append, List.map_append,
        ih (m.update_state kw t).1 (by rw [hsubs]; exact hc)]
      cases herr : (m.update_state kw t).2.2 with
      | none =>
          rw [update_state_trace_of_none m kw t herr, notify_filter_snap, hc]
          simp only [commitSnapshots, herr]
          rfl
      | some msg =>
          rw [update_state_trace_of_some m kw t msg herr]
          simp only [commitSnapshots, herr]
          rfl

/-- Claim C8: For every subscriber list, an observer that raises on
notification never prevents delivery to the others nor fails the update:
over any sequence of `update_state` calls, any subscriber occurring once
in the list receives exactly one delivery per committed update, carrying
the committed snapshots in commit order, and if it does not raise, each
of its deliveries completes normally — independently of how many other
subscribers raise. -/
theorem observer_fault_isolation (m : StateManager)
    (us : List (List UpdateEntry × Time)) (w : Subscriber)
    (hcount : m.subscribers.count w = 1) :
    ((runUpdates m us).2.filter (fun r => r.sub == w)).map (fun r => r.snap)
        = commitSnapshots m us ∧
    (w.raises = false →
      ∀ r ∈ (runUpdates m us).2, r.sub = w → r.outcome = .ok ()) :=
  ⟨runUpdates_filter_snap w us m hcount,
   fun hw => runUpdates_outcome_ok w hw us m⟩

/-- Witness for `observer_fault_isolation`: with subscriber 0 raising on
every notification, subscriber 1 still receives both committed snapshots
in order, with normal outcomes. -/
theorem observer_fault_isolation_witness :
    mgrTwoSubs.subscribers.count { id := 1, raises := false } = 1 ∧
    (((runUpdates mgrTwoSubs usTwo).2.filter
        (fun r => r.sub == ({ id := 1, raises := false } : Subscriber))).map
        (fun r => r.snap) = commitSnapshots mgrTwoSubs usTwo ∧
      (({ id := 1, raises := false } : Subscriber).raises = false →
        ∀ r ∈ (runUpdates mgrTwoSubs usTwo).2,
          r.sub = { id := 1, raises := false } → r.outcome = .ok ())) :=
  ⟨by decide,
   observer_fault_isolation mgrTwoSubs usTwo { id := 1, raises := false }
     (by decide)⟩

/-- What `restart_agent` does to a worker whose recorded task terminated
with a fault and whose agent is registered with a `start` attribute:
`stop_agent` skips cancellation (the task is already done) and deletes the
handle, and `start_agent` then records a fresh running task. -/
theorem restart_agent_of_doneExc (s : AgentScheduler) (name : String)
    (tid : Nat) (msg : String) (a : AgentRec)
    (htask : dictGet s.tasks name = some tid)
    (hexc : poolStatus s.pool tid = some (.doneExc msg))
    (hreg : dictGet s.agents name = some a) (hstart : a.hasStart = true) :
    s.restart_agent name = .ok
      { s with
        tasks := dictSet (dictDel s.tasks name) name s.nextTask,
        pool := s.pool ++ [{ tid := s.nextTask, agent := name, status := .running }],
        nextTask := s.nextTask + 1 } := by
  unfold AgentScheduler.restart_agent AgentScheduler.stop_agent
  simp only [htask]
  simp only [hexc]
  unfold AgentScheduler.start_agent
  simp only [hreg, hstart, if_true]

/-- A wake of the monitor loop never disturbs a name that is not among
the entries it processes: if that name has a live recorded task before the
wake processes the (distinct, well-formed) entries, it still has one
afterwards — restarting other workers only deletes/sets their own dict
entries and appends fresh tasks to the pool. -/
theorem monitorLoop_preserves (nm : String) :
    ∀ (entries : List (String × Nat)) (st : AgentScheduler),
      (entries.map Prod.fst).Nodup →
      (∀ p ∈ entries, p.1 ≠ nm) →
      (∀ p ∈ entries, registeredWithStart st p.1 = true) →
      (∀ p ∈ entries, dictGet st.tasks p.1 = some p.2) →
      hasRunningTask st nm →
      hasRunningTask (monitorLoop entries st) nm := by
  intro entries
  induction entries with
  | nil => intro st _ _ _ _ hP; exact hP
  | cons e rest ih =>
      intro st hnodup hne hregs htasks hP
      obtain ⟨n0, t0⟩ := e
      have hnodup' : (rest.map Prod.fst).Nodup := (List.nodup_cons.mp hnodup).2
      have hn0 : n0 ∉ rest.map Prod.fst := (List.nodup_cons.mp hnodup).1
      have hne' : ∀ p ∈ rest, p.1 ≠ nm := fun p hp => hne p (by simp [hp])
      have hregs' : ∀ p ∈ rest, registeredWithStart st p.1 = true :=
        fun p hp => hregs p (by simp [hp])
      have htasks' : ∀ p ∈ rest, dictGet st.tasks p.1 = some p.2 :=
        fun p hp => htasks p (by simp [hp])
      simp only [monitorLoop]
      cases hst : poolStatus st.pool t0 with
      | none => exact ih st hnodup' hne' hregs' htasks' hP
      | some st0 =>
          cases st0 with
          | running =>
              simp only [taskDone, taskCancelled, Bool.false_and, Bool.not_true,
                Bool.and_false, if_false, Bool.false_eq_true, reduceIte]
              exact ih st hnodup' hne' hregs' htasks' hP
          | cancelled =>
              simp only [taskDone, taskCancelled, Bool.not_true, Bool.and_false,
                Bool.false_eq_true, reduceIte]
              exact ih st hnodup' hne' hregs' htasks' hP
          | doneOk =>
              simp only [taskDone, taskCancelled, Bool.not_false, Bool.and_true,
                taskException, reduceIte]
              exact ih st hnodup' hne' hregs' htasks' hP
          | doneExc msg0 =>
              simp only [taskDone, taskCancelled, Bool.not_false, Bool.and_true,
                taskException, reduceIte]
              have hr := hregs (n0, t0) (by simp)
              cases hag : dictGet st.agents n0 with
              | none =>
                  rw [registeredWithStart, hag] at hr
                  exact absurd hr (by simp)
              | some a =>
                  have hstart : a.hasStart = true := by
                    rw [registeredWithStart, hag] at hr
                    exact hr
                  rw [restart_agent_of_doneExc st n0 t0 msg0 a
                    (htasks (n0, t0) (by simp)) hst hag hstart]
                  set st' : AgentScheduler :=
                    { st with
                      tasks := dictSet (dictDel st.tasks n0) n0 st.nextTask,
                      pool := st.pool
                        ++ [{ tid := st.nextTask, agent := n0, status := .running }],
                      nextTask := st.nextTask + 1 } with hst'
                  have hne0 : ∀ p ∈ rest, p.1 ≠ n0 := by
                    intro p hp hcontra
                    exact hn0 (hcontra ▸ List.mem_map_of_mem Prod.fst hp)
                  refine ih st' hnodup' hne' hregs' ?_ ?_
                  · intro p hp
                    have : dictGet st'.tasks p.1
                        = dictGet (dictDel st.tasks n0) p.1 :=
                      dictGet_dictSet_ne _ _ _ _ (hne0 p hp)
                    rw [this, dictGet_dictDel_ne _ _ _ (hne0 p hp)]
                    exact htasks' p hp
                  · obtain ⟨tidP, htidP, hrunP⟩ := hP
                    refine ⟨tidP, ?_, ?_⟩
                    · have h1 : dictGet st'.tasks nm
                          = dictGet (dictDel st.tasks n0) nm :=
                        dictGet_dictSet_ne _ _ _ _ (Ne.symm (hne (n0, t0) (by simp)))
                      rw [h1, dictGet_dictDel_ne _ _ _
                        (Ne.symm (hne (n0, t0) (by simp)))]
                      exact htidP
                    · have h2 : poolStatus st'.pool tidP = poolStatus st.pool tidP :=
                        poolStatus_append_of_isSome st.pool _ tidP
                          (by rw [hrunP]; rfl)
                      rw [h2, hrunP]

/-- One wake of the monitor loop restarts every processed worker whose
task terminated with a fault: after the wake that worker again has a live
recorded task. -/
theorem monitorLoop_restarts :
    ∀ (entries : List (String × Nat)) (st : AgentScheduler)
      (nm : String) (t : Nat) (msg : String),
      (entries.map Prod.fst).Nodup →
      (∀ p ∈ entries, registeredWithStart st p.1 = true) →
      (∀ p ∈ entries, dictGet st.tasks p.1 = some p.2) →
      (∀ q ∈ st.pool, q.tid < st.nextTask) →
      (nm, t) ∈ entries →
      poolStatus st.pool t = some (.doneExc msg) →
      hasRunningTask (monitorLoop entries st) nm := by
  intro entries
  induction entries with
  | nil => intro st nm t msg _ _ _ _ hmem _; simp at hmem
  | cons e rest ih =>
      intro st nm t msg hnodup hregs htasks hfresh hmem hexc
      obtain ⟨n0, t0⟩ := e
      have hnodup' : (rest.map Prod.fst).Nodup := (List.nodup_cons.mp hnodup).2
      have hn0 : n0 ∉ rest.map Prod.fst := (List.nodup_cons.mp hnodup).1
      have hregs' : ∀ p ∈ rest, registeredWithStart st p.1 = true :=
        fun p hp => hregs p (by simp [hp])
      have htasks' : ∀ p ∈ rest, dictGet st.tasks p.1 = some p.2 :=
        fun p hp => htasks p (by simp [hp])
      have hne0 : ∀ p ∈ rest, p.1 ≠ n0 := by
        intro p hp hcontra
        exact hn0 (hcontra ▸ List.mem_map_of_mem Prod.fst hp)
      simp only [monitorLoop]
      rcases List.mem_cons.mp hmem with heq | hmemrest
      · -- the head entry is the faulted worker itself
        obtain ⟨hnm, ht⟩ := Prod.mk.injEq nm t n0 t0 ▸ heq
        subst hnm
        subst ht
        rw [hexc]
        simp only [taskDone, taskCancelled, Bool.not_false, Bool.and_true,
          taskException, reduceIte]
        have hr := hregs (nm, t) (by simp)
        cases hag : dictGet st.agents nm with
        | none =>
            rw [registeredWithStart, hag] at hr
            exact absurd hr (by simp)
        | some a =>
            have hstart : a.hasStart = true := by
              rw [registeredWithStart, hag] at hr
              exact hr
            rw [restart_agent_of_doneExc st nm t msg a
              (htasks (nm, t) (by simp)) hexc hag hstart]
            set st' : AgentScheduler :=
              { st with
                tasks := dictSet (dictDel st.tasks nm) nm st.nextTask,
                pool := st.pool
                  ++ [{ tid := st.nextTask, agent := nm, status := .running }],
                nextTask := st.nextTask + 1 } with hst'
            have hne' : ∀ p ∈ rest, p.1 ≠ nm := hne0
            refine monitorLoop_preserves nm rest st' hnodup' hne' hregs' ?_ ?_
            · intro p hp
              have h1 : dictGet st'.tasks p.1
                  = dictGet (dictDel st.tasks nm) p.1 :=
                dictGet_dictSet_ne _ _ _ _ (hne0 p hp)
              rw [h1, dictGet_dictDel_ne _ _ _ (hne0 p hp)]
              exact htasks' p hp
            · refine ⟨st.nextTask, dictGet_dictSet_self _ _ _, ?_⟩
              exact poolStatus_append_fresh st.pool st.nextTask nm .running hfresh
      · -- the faulted worker sits further down the entry list
        have hnmne : nm ≠ n0 := by
          intro hcontra
          exact hn0 (hcontra ▸ List.mem_map_of_mem Prod.fst hmemrest)
        cases hst : poolStatus st.pool t0 with
        | none => exact ih st nm t msg hnodup' hregs' htasks' hfresh hmemrest hexc
        | some st0 =>
            cases st0 with
            | running =>
                simp only [taskDone, taskCancelled, Bool.false_and, Bool.not_true,
                  Bool.and_false, Bool.false_eq_true, reduceIte]
                exact ih st nm t msg hnodup' hregs' htasks' hfresh hmemrest hexc
            | cancelled =>
                simp only [taskDone, taskCancelled, Bool.not_true, Bool.and_false,
                  Bool.false_eq_true, reduceIte]
                exact ih st nm t msg hnodup' hregs' htasks' hfresh hmemrest hexc
            | doneOk =>
                simp only [taskDone, taskCancelled, Bool.not_false, Bool.and_true,
                  taskException, reduceIte]
                exact ih st nm t msg hnodup' hregs' htasks' hfresh hmemrest hexc
            | doneExc msg0 =>
                simp only [taskDone, taskCancelled, Bool.not_false, Bool.and_true,
                  taskException, reduceIte]
                have hr := hregs (n0, t0) (by simp)
                cases hag : dictGet st.agents n0 with
                | none =>
                    rw [registeredWithStart, hag] at hr
                    exact absurd hr (by simp)
                | some a =>
                    have hstart : a.hasStart = true := by
                      rw [registeredWithStart, hag] at hr
                      exact hr
                    rw [restart_agent_of_doneExc st n0 t0 msg0 a
                      (htasks (n0, t0) (by simp)) hst hag hstart]
                    set st' : AgentScheduler :=
                      { st with
                        tasks := dictSet (dictDel st.tasks n0) n0 st.nextTask,
                        pool := st.pool
                          ++ [{ tid := st.nextTask, agent := n0, status := .running }],
                        nextTask := st.nextTask + 1 } with hst'
                    refine ih st' nm t msg hnodup' hregs' ?_ ?_ hmemrest ?_
                    · intro p hp
                      have h1 : dictGet st'.tasks p.1
                          = dictGet (dictDel st.tasks n0) p.1 :=
                        dictGet_dictSet_ne _ _ _ _ (hne0 p hp)
                      rw [h1, dictGet_dictDel_ne _ _ _ (hne0 p hp)]
                      exact htasks' p hp
                    · intro q hq
                      simp only [hst', List.mem_append] at hq
                      rcases hq with hq | hq
                      · have := hfresh q hq
                        show q.tid < st.nextTask + 1
                        omega
                      · simp at hq
                        subst hq
                        show st.nextTask < st.nextTask + 1
                        omega
                    · show poolStatus (st.pool
                          ++ [{ tid := st.nextTask, agent := n0, status := .running }]) t
                        = some (.doneExc msg)
                      rw [poolStatus_append_of_isSome st.pool _ t (by rw [hexc]; rfl)]
                      exact hexc

/-- Claim C9: On a wake of the `monitor_agents` loop (one wake per monitor
interval), every tracked worker whose task terminated with a fault — not
cancelled — is restarted via `restart_agent`, and afterwards that worker
again has a live recorded task: its status is back to Running.  The
hypotheses are the well-formedness facts of every reachable scheduler:
tracked names are distinct dict keys mapping to their recorded task ids,
every tracked name is registered with a `start`-capable agent, and pool
task ids are below the fresh-id counter. -/
theorem monitor_restarts_failed_agents (s : AgentScheduler) (name : String)
    (tid : Nat) (msg : String)
    (hnodup : (s.tasks.map Prod.fst).Nodup)
    (hregs : ∀ p ∈ s.tasks, registeredWithStart s p.1 = true)
    (htasks : ∀ p ∈ s.tasks, dictGet s.tasks p.1 = some p.2)
    (hfresh : ∀ q ∈ s.pool, q.tid < s.nextTask)
    (hmem : (name, tid) ∈ s.tasks)
    (hexc : poolStatus s.pool tid = some (.doneExc msg)) :
    hasRunningTask s.monitorWake name :=
  monitorLoop_restarts s.tasks s name tid msg hnodup hregs htasks hfresh
    hmem hexc

/-- Witness for `monitor_restarts_failed_agents`: after registering and
starting "w" once, its task faults on its first iteration (`taskFails`);
one monitor wake later, "w" has a live recorded task again. -/
theorem monitor_restarts_failed_agents_witness :
    (((taskFails schedOneStarted 0 "boom").tasks.map Prod.fst).Nodup ∧
      (∀ p ∈ (taskFails schedOneStarted 0 "boom").tasks,
        registeredWithStart (taskFails schedOneStarted 0 "boom") p.1 = true) ∧
      (∀ p ∈ (taskFails schedOneStarted 0 "boom").tasks,
        dictGet (taskFails schedOneStarted 0 "boom").tasks p.1 = some p.2) ∧
      (∀ q ∈ (taskFails schedOneStarted 0 "boom").pool,
        q.tid < (taskFails schedOneStarted 0 "boom").nextTask) ∧
      ("w", 0) ∈ (taskFails schedOneStarted 0 "boom").tasks ∧
      poolStatus (taskFails schedOneStarted 0 "boom").pool 0
        = some (.doneExc "boom")) ∧
    hasRunningTask (taskFails schedOneStarted 0 "boom").monitorWake "w" :=
  ⟨⟨by decide, by decide, by decide, by decide, by decide, by decide⟩,
   monitor_restarts_failed_agents (taskFails schedOneStarted 0 "boom") "w" 0
     "boom" (by decide) (by decide) (by decide) (by decide) (by decide)
     (by decide)⟩
